import Mathlib

/-!
Shallow embedding of the godm repository's filter compiler, sort/select
parser, middleware pipeline, field-defaulting engine and the
findAndModify (`Query.Apply`) / `Query.Distinct` control flow.

Go strings are modelled as Lean `String`, with the handful of `strings`
standard-library operations the code uses re-implemented over the
underlying character lists (`String.data`) so that every definition is
executable by the kernel. Go `error` values are an inductive `GoErr`
(`none`/`Option.none` plays the role of Go's `nil` error). The
nondeterministic inputs of the code (`time.Now()`, freshly generated
object ids, the results of driver calls) are passed as explicit
parameters.
-/

/-- Errors of the godm package (src/errors.go) plus a constructor for the
driver's `mongo.ErrNoDocuments` sentinel and arbitrary callback errors. -/
inductive GoErr where
  | noDocuments : GoErr
  | notSlicePointer : GoErr
  | notSliceType : GoErr
  | resultTypeInconsistent : GoErr
  | custom : String → GoErr
deriving DecidableEq, Repr

/-- BSON values, enough to express `bson.D` documents (ordered key/value
lists), `bson.A` arrays and scalar leaves. A `bson.D` is represented as
`List (String × BVal)`. -/
inductive BVal where
  | str : String → BVal
  | intV : Int → BVal
  | arr : List BVal → BVal
  | doc : List (String × BVal) → BVal

/-- Modelled from the spec: the `operator` package of the repository is not
under src/; these are the MongoDB operator key constants it provides
(spec §4.2 lists the markers and their operators). -/
def opLt : String := "$lt"

/-- Modelled from the spec: `operator.Lte`. -/
def opLte : String := "$lte"

/-- Modelled from the spec: `operator.Gt`. -/
def opGt : String := "$gt"

/-- Modelled from the spec: `operator.Gte`. -/
def opGte : String := "$gte"

/-- Modelled from the spec: `operator.In`. -/
def opIn : String := "$in"

/-- Modelled from the spec: `operator.Nin` (not-in). -/
def opNin : String := "$nin"

/-- Modelled from the spec: `operator.Ne`. -/
def opNe : String := "$ne"

/-- Modelled from the spec: `operator.Eq`. -/
def opEq : String := "$eq"

/-- Modelled from the spec: `operator.And`. -/
def opAnd : String := "$and"

/-- Modelled from the spec: `operator.Or`. -/
def opOr : String := "$or"

/-- Go `strings.HasSuffix(s, suffix)`. -/
def goHasSuffix (s suffix : String) : Bool :=
  suffix.data.isSuffixOf s.data

/-- Matches `pat` against the front of `s`; on success returns the rest of
`s` after the match (helper for the model of `strings.Replace`). -/
def stripPrefixChars : List Char → List Char → Option (List Char)
  | [], s => some s
  | _ :: _, [] => none
  | p :: ps, c :: cs => if p = c then stripPrefixChars ps cs else none

/-- Go `strings.Replace(s, pat, "", -1)` over character lists: removes every
non-overlapping occurrence of `pat`, scanning left to right. The `fuel`
argument only makes the recursion structural: every recursive call both
strictly shortens the scanned list (`stripPrefixChars_length_lt`) and spends
one unit of fuel, so starting with `fuel = s.length` (as `goRemoveAll`
does) the fuel can never run out before the scan ends. -/
def goRemoveAllChars (pat : List Char) : Nat → List Char → List Char
  | _, [] => []
  | 0, s => s
  | fuel + 1, c :: cs =>
    match stripPrefixChars pat (c :: cs), pat with
    | some rest, _ :: _ => goRemoveAllChars pat fuel rest
    | some _, [] => c :: goRemoveAllChars pat fuel cs
    | none, _ => c :: goRemoveAllChars pat fuel cs

/-- Go `strings.Replace(field, key, "", -1)` as used by `makeWhere`. -/
def goRemoveAll (pat s : String) : String :=
  String.mk (goRemoveAllChars pat.data s.data.length s.data)

/-- Go `strings.Trim(s, " ")`: removes leading and trailing spaces. -/
def goTrim (s : String) : String :=
  String.mk ((((s.data.dropWhile (· == ' ')).reverse).dropWhile (· == ' ')).reverse)

/-- The suffix-marker dispatch of `makeWhere` (src/unnamed/part_000 lines
50-80): returns the list of marker strings to strip and the operator,
checked in exactly the source's order. -/
def selectKeys (field : String) : List String × String :=
  if goHasSuffix field " <" then ([" <"], opLt)
  else if goHasSuffix field " <=" then ([" <="], opLte)
  else if goHasSuffix field " >" then ([" >"], opGt)
  else if goHasSuffix field " >=" then ([" >="], opGte)
  else if goHasSuffix field " in" || goHasSuffix field " IN" then ([" in", " IN"], opIn)
  else if goHasSuffix field " not in" || goHasSuffix field " NOT IN" then
    ([" not in", " NOT IN"], opNin)
  else if goHasSuffix field " !=" || goHasSuffix field " <>" then ([" !=", " <>"], opNe)
  else ([], opEq)

/-- The marker-stripping loop of `makeWhere` (lines 82-86): replaces every
occurrence of every marker string with the empty string. -/
def stripKeys (keys : List String) (field : String) : String :=
  keys.foldl (fun f k => goRemoveAll k f) field

/-- `makeWhere` (src/unnamed/part_000 lines 42-95). The Go map of filter
conditions is modelled as an association list in iteration order. -/
def makeWhere (filters : List (String × BVal)) : List (String × BVal) :=
  filters.map (fun fv =>
    let ks := selectKeys fv.1
    let field := goTrim (stripKeys ks.1 fv.1)
    (field, BVal.doc [(ks.2, fv.2)]))

/-- The part of the `Query` builder state the filter compiler touches
(src/unnamed/part_000 line 19): the accumulated `bson.D` filter. The empty
list models Go's nil `bson.D` (the only non-nil value ever assigned is
nonempty, and appending zero elements to nil keeps nil). -/
structure Query where
  filter : List (String × BVal)

/-- `Query.Where` (lines 97-103). -/
def Query.Where (q : Query) (filters : List (String × BVal)) : Query :=
  { q with filter := q.filter ++ makeWhere filters }

/-- `Query.AndWhere` (lines 105-124). -/
def Query.AndWhere (q : Query) (filters : List (String × BVal)) : Query :=
  match q.filter with
  | [] => q.Where filters
  | _ :: _ =>
    { q with filter := [(opAnd, BVal.arr [BVal.doc q.filter, BVal.doc (makeWhere filters)])] }

/-- `Query.OrWhere` (lines 126-145). -/
def Query.OrWhere (q : Query) (filters : List (String × BVal)) : Query :=
  match q.filter with
  | [] => q.Where filters
  | _ :: _ =>
    { q with filter := [(opOr, BVal.arr [BVal.doc q.filter, BVal.doc (makeWhere filters)])] }

/-- Depth of the left-leaning combinator spine of an accumulated filter: a
filter of the shape `[(AND|OR, [subfilter, leaves])]` is one deeper than
its left subfilter; anything else has depth zero. -/
def filterDepth : List (String × BVal) → Nat
  | [(k, BVal.arr [BVal.doc l, _])] =>
    if k = opAnd ∨ k = opOr then filterDepth l + 1 else 0
  | _ => 0

/-- Go `strings.Split(s, " ")` for the single-character separator used by
`ParseSortField`: splits at every occurrence of the separator, keeping
empty fields. -/
def splitOnChar (sep : Char) : List Char → List (List Char)
  | [] => [[]]
  | c :: cs =>
    if c = sep then [] :: splitOnChar sep cs
    else
      match splitOnChar sep cs with
      | [] => [[c]]
      | w :: ws => (c :: w) :: ws

/-- Go `strings.Split(field, " ")`. -/
def goSplitSpace (s : String) : List String :=
  (splitOnChar ' ' s.data).map String.mk

/-- Go `strings.ToLower`. -/
def goToLower (s : String) : String :=
  String.mk (s.data.map Char.toLower)

/-- `ParseSortField` (src/util.go lines 25-40). Returns the sort key and the
direction (`1` ascending, `-1` descending). -/
def ParseSortField (field : String) : String × Int :=
  if field = "" then (field, 1)
  else
    let splitted := goSplitSpace field
    let sort : Int :=
      if splitted.length = 2 ∧ goToLower (splitted.getD 1 "") = "desc" then -1 else 1
    (splitted.headD field, sort)

/-- `Now` (src/util.go lines 12-15): the current Unix time in nanoseconds,
truncated to millisecond precision. Times are modelled as `Nat`
nanosecond counts (`0` is the zero time); the nondeterministic
`time.Now().UnixNano()` is the argument. -/
def Now (unixNano : Nat) : Nat :=
  unixNano / 1000000 * 1000000

/-- Operation phases. Modelled from the spec: the `operator` package
(OpType constants) is not under src/; spec §3 "Operation Phase" lists the
lifecycle tags. -/
inductive OpType where
  | beforeInsert | afterInsert
  | beforeUpdate | afterUpdate
  | beforeReplace | afterReplace
  | beforeUpsert | afterUpsert
  | beforeRemove | afterRemove
  | beforeQuery | afterQuery
deriving DecidableEq, Repr

/-- `middleware.Do` (src/middleware/middleware.go lines 30-37): runs every
registered callback in order on the same document, returning the first
non-nil error. Callbacks are pure functions of (context, document, phase,
options); the registered list is passed explicitly instead of the Go
package-level variable. -/
def middlewareDo {Ctx Doc Opt : Type}
    (callbacks : List (Ctx → Doc → OpType → List Opt → Option GoErr))
    (ctx : Ctx) (doc : Doc) (opType : OpType) (opts : List Opt) : Option GoErr :=
  match callbacks with
  | [] => none
  | cb :: rest =>
    match cb ctx doc opType opts with
    | some e => some e
    | none => middlewareDo rest ctx doc opType opts

/-- `middleware.Register` (src/middleware/middleware.go lines 24-26):
appends a callback to the registered list. -/
def middlewareRegister {Ctx Doc Opt : Type}
    (callbacks : List (Ctx → Doc → OpType → List Opt → Option GoErr))
    (cb : Ctx → Doc → OpType → List Opt → Option GoErr) :
    List (Ctx → Doc → OpType → List Opt → Option GoErr) :=
  callbacks ++ [cb]

/-- The shapes `field.Do` (src/field/field.go lines 27-46) distinguishes by
reflection: a nil interface (`reflect.TypeOf(doc) == nil`), a slice of
documents, a pointer to a slice of documents, a pointer to a single
document, and any other kind (which falls through the switch). -/
inductive FieldDoc (δ : Type) where
  | nilInterface : FieldDoc δ
  | slice : List δ → FieldDoc δ
  | ptrToSlice : List δ → FieldDoc δ
  | ptrToDoc : δ → FieldDoc δ
  | otherKind : FieldDoc δ

/-- `field.sliceHandle` (src/field/field.go lines 49-67): applies the
per-document handler `doF` (the source's `do`) to each element in order,
short-circuiting on the first error. The source's two loops (a type switch
for `[]interface{}` and a reflective loop for typed slices) have the same
sequential semantics. -/
def fieldSliceHandle {δ : Type} (doF : δ → OpType → Option GoErr) :
    List δ → OpType → Option GoErr
  | [], _ => none
  | d :: rest, opType =>
    match doF d opType with
    | some e => some e
    | none => fieldSliceHandle doF rest opType

/-- `field.Do` (src/field/field.go lines 27-46), parametrised by the
per-document handler `doF` (the source's `do`). -/
def fieldDo {δ : Type} (doF : δ → OpType → Option GoErr) :
    FieldDoc δ → OpType → Option GoErr
  | .nilInterface, _ => none
  | .slice ds, opType => fieldSliceHandle doF ds opType
  | .ptrToSlice ds, opType => fieldSliceHandle doF ds opType
  | .ptrToDoc d, opType => doF d opType
  | .otherKind, _ => none

/-- `field.DefaultField` (src/unnamed/part_002 lines 90-94): object id
(`0` is the zero ObjectID) and creation/update times in nanoseconds
(`0` is the zero time). -/
structure DefaultField where
  Id : Nat
  CreateAt : Nat
  UpdateAt : Nat
deriving DecidableEq, Repr

/-- `DefaultField.DefaultUpdateAt` (src/unnamed/part_002 lines 97-99):
unconditionally writes `time.Now().Local()` — the raw current time, passed
here as `timeNowLocal`. -/
def DefaultField.DefaultUpdateAt (df : DefaultField) (timeNowLocal : Nat) : DefaultField :=
  { df with UpdateAt := timeNowLocal }

/-- `DefaultField.DefaultCreateAt` (src/unnamed/part_002 lines 102-106):
writes the current time only when the field is zero. -/
def DefaultField.DefaultCreateAt (df : DefaultField) (timeNowLocal : Nat) : DefaultField :=
  if df.CreateAt = 0 then { df with CreateAt := timeNowLocal } else df

/-- `DefaultField.DefaultId` (src/unnamed/part_002 lines 109-113): writes a
fresh ObjectID only when the field is zero. -/
def DefaultField.DefaultId (df : DefaultField) (newObjectId : Nat) : DefaultField :=
  if df.Id = 0 then { df with Id := newObjectId } else df

/-- Modelled from the spec: the `CustomFields` implementation
(field/custom_field.go) is not under src/; spec §4.4 says the custom-field
capability applies "the same three rules to the mapped field names":
identity and creation-time only when unset, update-time unconditionally.
The three mapped fields' current values are modelled directly. -/
structure CustomFields where
  id : Nat
  createAt : Nat
  updateAt : Nat
deriving DecidableEq, Repr

/-- Modelled from the spec: `CustomFields.CustomId` sets the mapped
identity field only when it is zero-valued. -/
def CustomFields.CustomId (cf : CustomFields) (newObjectId : Nat) : CustomFields :=
  if cf.id = 0 then { cf with id := newObjectId } else cf

/-- Modelled from the spec: `CustomFields.CustomCreateTime` sets the mapped
creation-time field only when it is zero-valued. -/
def CustomFields.CustomCreateTime (cf : CustomFields) (timeNow : Nat) : CustomFields :=
  if cf.createAt = 0 then { cf with createAt := timeNow } else cf

/-- Modelled from the spec: `CustomFields.CustomUpdateTime` unconditionally
refreshes the mapped update-time field. -/
def CustomFields.CustomUpdateTime (cf : CustomFields) (timeNow : Nat) : CustomFields :=
  { cf with updateAt := timeNow }

/-- A document as the field-defaulting handlers see it: it may implement
the `DefaultFieldHook` capability (`defaultF = some _`) and/or the
`CustomFieldsHook` capability (`customF = some _`); the type assertions in
the handlers succeed exactly when the corresponding component is present. -/
structure FDoc where
  defaultF : Option DefaultField
  customF : Option CustomFields
deriving DecidableEq, Repr

/-- Nondeterministic inputs of one handler invocation: the freshly
generated object id and the `time.Now()` readings used for the
creation-time and update-time writes. -/
structure FieldEnv where
  newId : Nat
  nowCreate : Nat
  nowUpdate : Nat
deriving DecidableEq, Repr

/-- `field.beforeInsert` (src/field/field.go lines 73-86): default-field
hook first (id, createAt, updateAt), then the custom-fields hook with the
same three roles; always returns a nil error. Go's in-place mutation is
modelled by returning the updated document next to the error. -/
def beforeInsert (env : FieldEnv) (doc : FDoc) : Option GoErr × FDoc :=
  let doc :=
    match doc.defaultF with
    | some df =>
      { doc with
        defaultF :=
          some (((df.DefaultId env.newId).DefaultCreateAt env.nowCreate).DefaultUpdateAt
            env.nowUpdate) }
    | none => doc
  let doc :=
    match doc.customF with
    | some cf =>
      { doc with
        customF :=
          some (((cf.CustomId env.newId).CustomCreateTime env.nowCreate).CustomUpdateTime
            env.nowUpdate) }
    | none => doc
  (none, doc)

/-- `field.beforeUpdate` (src/field/field.go lines 89-98): refreshes only
the update-time of each capability; always returns a nil error. -/
def beforeUpdate (env : FieldEnv) (doc : FDoc) : Option GoErr × FDoc :=
  let doc :=
    match doc.defaultF with
    | some df => { doc with defaultF := some (df.DefaultUpdateAt env.nowUpdate) }
    | none => doc
  let doc :=
    match doc.customF with
    | some cf => { doc with customF := some (cf.CustomUpdateTime env.nowUpdate) }
    | none => doc
  (none, doc)

/-- `field.beforeUpsert` (src/field/field.go lines 104-117): same body as
`beforeInsert`, duplicated in the source. -/
def beforeUpsert (env : FieldEnv) (doc : FDoc) : Option GoErr × FDoc :=
  let doc :=
    match doc.defaultF with
    | some df =>
      { doc with
        defaultF :=
          some (((df.DefaultId env.newId).DefaultCreateAt env.nowCreate).DefaultUpdateAt
            env.nowUpdate) }
    | none => doc
  let doc :=
    match doc.customF with
    | some cf =>
      { doc with
        customF :=
          some (((cf.CustomId env.newId).CustomCreateTime env.nowCreate).CustomUpdateTime
            env.nowUpdate) }
    | none => doc
  (none, doc)

/-- `fieldHandler` (src/field/field.go lines 14-19): the phase-to-handler
map; phases outside the four keys are absent. -/
def fieldHandler : OpType → Option (FieldEnv → FDoc → Option GoErr × FDoc)
  | .beforeInsert => some beforeInsert
  | .beforeUpdate => some beforeUpdate
  | .beforeReplace => some beforeUpdate
  | .beforeUpsert => some beforeUpsert
  | _ => none

/-- `field.do` (src/field/field.go lines 120-126): looks the phase up in
`fieldHandler` and runs the handler, or is a no-op for unsupported phases. -/
def fieldDoOne (env : FieldEnv) (doc : FDoc) (opType : OpType) : Option GoErr × FDoc :=
  match fieldHandler opType with
  | none => (none, doc)
  | some f => f env doc

/-- Projection helpers on the optional capabilities of an `FDoc`. -/
def FDoc.dfId (d : FDoc) : Option Nat := d.defaultF.map DefaultField.Id

/-- Creation-time of the default-field capability, when present. -/
def FDoc.dfCreateAt (d : FDoc) : Option Nat := d.defaultF.map DefaultField.CreateAt

/-- Update-time of the default-field capability, when present. -/
def FDoc.dfUpdateAt (d : FDoc) : Option Nat := d.defaultF.map DefaultField.UpdateAt

/-- Mapped identity of the custom-fields capability, when present. -/
def FDoc.cfId (d : FDoc) : Option Nat := d.customF.map CustomFields.id

/-- Mapped creation-time of the custom-fields capability, when present. -/
def FDoc.cfCreateAt (d : FDoc) : Option Nat := d.customF.map CustomFields.createAt

/-- Mapped update-time of the custom-fields capability, when present. -/
def FDoc.cfUpdateAt (d : FDoc) : Option Nat := d.customF.map CustomFields.updateAt

/-- `Change` (src/interface.go lines 20-26); the `Update` payload does not
influence the control flow modelled here and is omitted. -/
structure Change where
  Replace : Bool
  Remove : Bool
  Upsert : Bool
  ReturnNew : Bool
deriving DecidableEq, Repr

/-- `Query.findOneAndDelete` (src/unnamed/part_000 lines 456-468): returns
whatever the driver call's `Decode` reported (`decodeErr`, `none` = nil). -/
def findOneAndDelete (_change : Change) (decodeErr : Option GoErr) : Option GoErr :=
  decodeErr

/-- `Query.findOneAndReplace` (src/unnamed/part_000 lines 472-498): a
driver not-found result is suppressed exactly when `Upsert` is set and
`ReturnNew` is not. -/
def findOneAndReplace (change : Change) (decodeErr : Option GoErr) : Option GoErr :=
  if change.Upsert && !change.ReturnNew && decide (decodeErr = some GoErr.noDocuments) then
    none
  else decodeErr

/-- `Query.findOneAndUpdate` (src/unnamed/part_000 lines 502-528): same
suppression rule as `findOneAndReplace`. -/
def findOneAndUpdate (change : Change) (decodeErr : Option GoErr) : Option GoErr :=
  if change.Upsert && !change.ReturnNew && decide (decodeErr = some GoErr.noDocuments) then
    none
  else decodeErr

/-- `Query.Apply` (src/unnamed/part_000 lines 440-452): dispatches on
`Remove` / `Replace` / default update. `decodeErr` is the outcome the
selected driver call's `Decode` reports. -/
def queryApply (change : Change) (decodeErr : Option GoErr) : Option GoErr :=
  if change.Remove then findOneAndDelete change decodeErr
  else if change.Replace then findOneAndReplace change decodeErr
  else findOneAndUpdate change decodeErr

/-- The `reflect.Kind`s `Query.Distinct` inspects, plus a representative
of every other kind. -/
inductive GoKind where
  | kPtr | kSlice | kInterface | kOther
deriving DecidableEq, Repr

/-- `Query.Distinct` (src/unnamed/part_000 lines 335-381) control flow:
`resultKind` is the kind of the caller's result argument, `elemKind` the
kind of its pointee (meaningful when `resultKind = kPtr`). The driver
`Distinct` call, the `bson.MarshalValueWithRegistry` step and the
`rawValue.Unmarshal` step are external and their outcomes are parameters.
Returns the Go error and whether the driver call was issued. -/
def queryDistinct (resultKind elemKind : GoKind)
    (driverErr : Option GoErr) (marshalErr : Option GoErr) (unmarshalOk : Bool) :
    Option GoErr × Bool :=
  if resultKind ≠ GoKind.kPtr then (some GoErr.notSlicePointer, false)
  else if elemKind ≠ GoKind.kInterface ∧ elemKind ≠ GoKind.kSlice then
    (some GoErr.notSliceType, false)
  else
    match driverErr with
    | some e => (some e, true)
    | none =>
      match marshalErr with
      | some e => (some e, true)
      | none =>
        if unmarshalOk then (none, true)
        else (some GoErr.resultTypeInconsistent, true)

/-! Helper lemmas. -/

theorem stripPrefixChars_length_lt :
    ∀ (p : Char) (ps s rest : List Char),
      stripPrefixChars (p :: ps) s = some rest → rest.length < s.length := by
  intro p ps
  induction ps generalizing p with
  | nil =>
    intro s rest h
    match s with
    | [] => simp [stripPrefixChars] at h
    | c :: cs =>
      simp only [stripPrefixChars] at h
      split at h
      · simp [stripPrefixChars] at h
        simp [h]
      · exact absurd h (by simp)
  | cons q qs ih =>
    intro s rest h
    match s with
    | [] => simp [stripPrefixChars] at h
    | c :: cs =>
      simp only [stripPrefixChars] at h
      split at h
      · have := ih q cs rest h
        simp
        omega
      · exact absurd h (by simp)

theorem goHasSuffix_mono (s a b : String) (hab : b.data <:+ a.data)
    (h : goHasSuffix s a = true) : goHasSuffix s b = true := by
  simp only [goHasSuffix] at h ⊢
  simp only [List.isSuffixOf_iff_suffix] at h ⊢
  exact hab.trans h

theorem selectKeys_ne_nin (field : String) : (selectKeys field).2 ≠ opNin := by
  unfold selectKeys
  split
  · simp [opLt, opNin]
  split
  · simp [opLte, opNin]
  split
  · simp [opGt, opNin]
  split
  · simp [opGte, opNin]
  split
  · simp [opIn, opNin]
  rename_i h1 h2 h3 h4 hin
  split
  · rename_i hnin
    exfalso
    rcases Bool.or_eq_true _ _ |>.mp hnin with hno | hNO
    · have : goHasSuffix field " in" = true :=
        goHasSuffix_mono field " not in" " in" (by decide) hno
      simp [this] at hin
    · have : goHasSuffix field " IN" = true :=
        goHasSuffix_mono field " NOT IN" " IN" (by decide) hNO
      simp [this] at hin
  split
  · simp [opNe, opNin]
  · simp [opEq, opNin]

/-- C1: the claim says a key ending in " not in" (or " NOT IN") compiles to
a leaf with the not-in operator and the marker stripped from the field
name, never misclassified as " in". The code checks the " in" suffix
before " not in", and every string ending in " not in" also ends in " in",
so the not-in branch of `makeWhere` is unreachable: the key
"age not in" compiles to the field "age not" with the `$in` operator, and
no key at all selects the `$nin` operator. -/
theorem c1_not_in_marker_misclassified :
    makeWhere [("age not in", BVal.arr [BVal.intV 1, BVal.intV 2])] =
      [("age not", BVal.doc [(opIn, BVal.arr [BVal.intV 1, BVal.intV 2])])] ∧
    ∀ field : String, (selectKeys field).2 ≠ opNin := by
  exact ⟨rfl, selectKeys_ne_nin⟩

/-- C3: `AndWhere`/`OrWhere` on an empty accumulated filter behave exactly
like `Where`; on a nonempty filter they replace the whole filter with a
single AND (resp. OR) node whose left child is the previous filter and
whose right child is the newly compiled leaves, so the left-leaning
combinator depth grows by one per call. -/
theorem c3_andWhere_orWhere_nesting (q : Query) (c : List (String × BVal)) :
    (q.filter = [] → q.AndWhere c = q.Where c ∧ q.OrWhere c = q.Where c) ∧
    (q.filter ≠ [] →
      (q.AndWhere c).filter =
        [(opAnd, BVal.arr [BVal.doc q.filter, BVal.doc (makeWhere c)])] ∧
      (q.OrWhere c).filter =
        [(opOr, BVal.arr [BVal.doc q.filter, BVal.doc (makeWhere c)])] ∧
      filterDepth (q.AndWhere c).filter = filterDepth q.filter + 1 ∧
      filterDepth (q.OrWhere c).filter = filterDepth q.filter + 1) := by
  obtain ⟨f⟩ := q
  cases f with
  | nil =>
    refine ⟨fun _ => ⟨rfl, rfl⟩, fun h => absurd rfl h⟩
  | cons x xs =>
    refine ⟨fun h => absurd h (by simp), fun _ => ?_⟩
    refine ⟨rfl, rfl, ?_, ?_⟩
    · show filterDepth [(opAnd, BVal.arr [BVal.doc (x :: xs), BVal.doc (makeWhere c)])] = _
      simp [filterDepth]
    · show filterDepth [(opOr, BVal.arr [BVal.doc (x :: xs), BVal.doc (makeWhere c)])] = _
      simp [filterDepth]

/-- Witness for C3 at concrete inputs: a fresh builder's `AndWhere` equals
`Where`, and after `Where` a second call wraps the accumulated filter. -/
theorem c3_andWhere_orWhere_nesting_witness :
    (Query.mk []).AndWhere [("a", BVal.intV 1)] = (Query.mk []).Where [("a", BVal.intV 1)] ∧
    ((Query.mk [("x", BVal.doc [(opEq, BVal.intV 0)])]).AndWhere [("a", BVal.intV 1)]).filter =
      [(opAnd, BVal.arr [BVal.doc [("x", BVal.doc [(opEq, BVal.intV 0)])],
        BVal.doc (makeWhere [("a", BVal.intV 1)])])] :=
  ⟨(c3_andWhere_orWhere_nesting (Query.mk []) [("a", BVal.intV 1)]).1 rfl |>.1,
   ((c3_andWhere_orWhere_nesting (Query.mk [("x", BVal.doc [(opEq, BVal.intV 0)])])
      [("a", BVal.intV 1)]).2 (by simp)).1⟩

/-- C2: with Remove=false, Upsert=true, ReturnNew=false a driver
not-found result is suppressed (`Apply` returns nil) on both the Replace
and the Update path; with Upsert=false the same not-found result is
surfaced. -/
theorem c2_apply_upsert_suppression (change : Change) (hrem : change.Remove = false) :
    (change.Upsert = true → change.ReturnNew = false →
      queryApply change (some GoErr.noDocuments) = none) ∧
    (change.Upsert = false →
      queryApply change (some GoErr.noDocuments) = some GoErr.noDocuments) := by
  obtain ⟨rep, rem, up, new⟩ := change
  simp only at hrem
  subst hrem
  constructor
  · intro hup hnew
    simp only at hup hnew
    subst hup
    subst hnew
    cases rep <;>
      simp [queryApply, findOneAndReplace, findOneAndUpdate]
  · intro hup
    simp only at hup
    subst hup
    cases rep <;>
      simp [queryApply, findOneAndReplace, findOneAndUpdate]

/-- Witness for C2: Replace with Upsert and no ReturnNew suppresses the
not-found error; Update without Upsert surfaces it. -/
theorem c2_apply_upsert_suppression_witness :
    queryApply (Change.mk true false true false) (some GoErr.noDocuments) = none ∧
    queryApply (Change.mk false false false false) (some GoErr.noDocuments) =
      some GoErr.noDocuments :=
  ⟨(c2_apply_upsert_suppression (Change.mk true false true false) rfl).1 rfl rfl,
   (c2_apply_upsert_suppression (Change.mk false false false false) rfl).2 rfl⟩

/-- C4: the middleware pipeline runs callbacks strictly in registration
order on the same document and returns the first non-nil error without
consulting any later callback (the result does not depend on `post`); when
every callback returns nil it returns nil. -/
theorem c4_middleware_fail_fast (Ctx Doc Opt : Type)
    (pre post : List (Ctx → Doc → OpType → List Opt → Option GoErr))
    (cb : Ctx → Doc → OpType → List Opt → Option GoErr)
    (ctx : Ctx) (doc : Doc) (opType : OpType) (opts : List Opt) (e : GoErr) :
    ((∀ c ∈ pre, c ctx doc opType opts = none) → cb ctx doc opType opts = some e →
      middlewareDo (pre ++ cb :: post) ctx doc opType opts = some e) ∧
    ((∀ c ∈ pre, c ctx doc opType opts = none) →
      middlewareDo pre ctx doc opType opts = none) := by
  constructor
  · intro hpre hcb
    induction pre with
    | nil => simp [middlewareDo, hcb]
    | cons c rest ih =>
      have hc : c ctx doc opType opts = none := hpre c (by simp)
      have hrest : ∀ x ∈ rest, x ctx doc opType opts = none := by
        intro x hx
        exact hpre x (by simp [hx])
      simp only [List.cons_append, middlewareDo, hc]
      exact ih hrest
  · intro hpre
    induction pre with
    | nil => simp [middlewareDo]
    | cons c rest ih =>
      have hc : c ctx doc opType opts = none := hpre c (by simp)
      have hrest : ∀ x ∈ rest, x ctx doc opType opts = none := by
        intro x hx
        exact hpre x (by simp [hx])
      simp only [middlewareDo, hc]
      exact ih hrest

/-- Witness for C4: three concrete callbacks where the second errors; the
pipeline returns the second callback's error, and the third callback's
(different) error never surfaces. -/
theorem c4_middleware_fail_fast_witness :
    @middlewareDo Unit Nat Unit
      [fun _ _ _ _ => none,
       fun _ _ _ _ => some (GoErr.custom "boom"),
       fun _ _ _ _ => some (GoErr.custom "later")]
      () 0 OpType.beforeInsert [] = some (GoErr.custom "boom") :=
  (c4_middleware_fail_fast Unit Nat Unit
      [fun _ _ _ _ => none] [fun _ _ _ _ => some (GoErr.custom "later")]
      (fun _ _ _ _ => some (GoErr.custom "boom"))
      () 0 OpType.beforeInsert [] (GoErr.custom "boom")).1
    (by
      intro c hc
      rw [List.mem_singleton] at hc
      subst hc
      rfl)
    rfl

/-- C5: slice-shaped documents are dispatched to the per-document handler
strictly in sequence order, the first failing element aborts the dispatch
with later elements unprocessed (the result does not depend on `post`),
and a nil reference or an empty slice is a no-op returning nil. -/
theorem c5_field_dispatch (δ : Type) (doF : δ → OpType → Option GoErr)
    (pre post : List δ) (d : δ) (opType : OpType) (e : GoErr) :
    ((∀ x ∈ pre, doF x opType = none) → doF d opType = some e →
      fieldDo doF (FieldDoc.slice (pre ++ d :: post)) opType = some e ∧
      fieldDo doF (FieldDoc.ptrToSlice (pre ++ d :: post)) opType = some e) ∧
    fieldDo doF FieldDoc.nilInterface opType = none ∧
    fieldDo doF (FieldDoc.slice ([] : List δ)) opType = none := by
  refine ⟨fun hpre hd => ?_, rfl, rfl⟩
  have key : fieldSliceHandle doF (pre ++ d :: post) opType = some e := by
    induction pre with
    | nil => simp [fieldSliceHandle, hd]
    | cons x rest ih =>
      have hx : doF x opType = none := hpre x (by simp)
      have hrest : ∀ y ∈ rest, doF y opType = none := by
        intro y hy
        exact hpre y (by simp [hy])
      simp only [List.cons_append, fieldSliceHandle, hx]
      exact ih hrest
  exact ⟨key, key⟩

/-- Witness for C5: a slice of three documents where the handler fails on
the second; the dispatch reports that failure (the third element is never
reached), and the nil/empty cases are no-ops. -/
theorem c5_field_dispatch_witness :
    fieldDo (fun n _ => if n = 2 then some (GoErr.custom "fail2") else none)
      (FieldDoc.slice [1, 2, 3]) OpType.beforeInsert = some (GoErr.custom "fail2") :=
  ((c5_field_dispatch Nat (fun n _ => if n = 2 then some (GoErr.custom "fail2") else none)
      [1] [3] 2 OpType.beforeInsert (GoErr.custom "fail2")).1
    (by
      intro x hx
      rw [List.mem_singleton] at hx
      subst hx
      rfl)
    rfl).1

theorem dfChain_id (df : DefaultField) (i c u : Nat) (h : df.Id ≠ 0) :
    (((df.DefaultId i).DefaultCreateAt c).DefaultUpdateAt u).Id = df.Id := by
  simp only [DefaultField.DefaultId, DefaultField.DefaultCreateAt, DefaultField.DefaultUpdateAt,
    if_neg h]
  split_ifs <;> rfl

theorem dfChain_createAt (df : DefaultField) (i c u : Nat) (h : df.CreateAt ≠ 0) :
    (((df.DefaultId i).DefaultCreateAt c).DefaultUpdateAt u).CreateAt = df.CreateAt := by
  simp only [DefaultField.DefaultId, DefaultField.DefaultCreateAt, DefaultField.DefaultUpdateAt]
  split_ifs <;> rfl

theorem cfChain_id (cf : CustomFields) (i c u : Nat) (h : cf.id ≠ 0) :
    (((cf.CustomId i).CustomCreateTime c).CustomUpdateTime u).id = cf.id := by
  simp only [CustomFields.CustomId, CustomFields.CustomCreateTime, CustomFields.CustomUpdateTime,
    if_neg h]
  split_ifs <;> rfl

theorem cfChain_createAt (cf : CustomFields) (i c u : Nat) (h : cf.createAt ≠ 0) :
    (((cf.CustomId i).CustomCreateTime c).CustomUpdateTime u).createAt = cf.createAt := by
  simp only [CustomFields.CustomId, CustomFields.CustomCreateTime, CustomFields.CustomUpdateTime]
  split_ifs <;> rfl

/-- C6: in the before-insert and before-upsert phases, identity and
creation-time (of both the default-field capability and the spec-modelled
custom-field capability) are assigned only when currently zero-valued, and
in the before-update and before-replace phases they are left untouched
entirely while only the update-time fields are refreshed. -/
theorem c6_field_defaulting_no_overwrite (env : FieldEnv) (doc : FDoc) :
    ((doc.dfId ≠ some 0 →
        (fieldDoOne env doc OpType.beforeInsert).2.dfId = doc.dfId ∧
        (fieldDoOne env doc OpType.beforeUpsert).2.dfId = doc.dfId) ∧
     (doc.dfCreateAt ≠ some 0 →
        (fieldDoOne env doc OpType.beforeInsert).2.dfCreateAt = doc.dfCreateAt ∧
        (fieldDoOne env doc OpType.beforeUpsert).2.dfCreateAt = doc.dfCreateAt) ∧
     (doc.cfId ≠ some 0 →
        (fieldDoOne env doc OpType.beforeInsert).2.cfId = doc.cfId ∧
        (fieldDoOne env doc OpType.beforeUpsert).2.cfId = doc.cfId) ∧
     (doc.cfCreateAt ≠ some 0 →
        (fieldDoOne env doc OpType.beforeInsert).2.cfCreateAt = doc.cfCreateAt ∧
        (fieldDoOne env doc OpType.beforeUpsert).2.cfCreateAt = doc.cfCreateAt)) ∧
    ((fieldDoOne env doc OpType.beforeUpdate).2.dfId = doc.dfId ∧
     (fieldDoOne env doc OpType.beforeUpdate).2.dfCreateAt = doc.dfCreateAt ∧
     (fieldDoOne env doc OpType.beforeUpdate).2.cfId = doc.cfId ∧
     (fieldDoOne env doc OpType.beforeUpdate).2.cfCreateAt = doc.cfCreateAt ∧
     (fieldDoOne env doc OpType.beforeUpdate).2.dfUpdateAt =
       doc.defaultF.map (fun _ => env.nowUpdate) ∧
     (fieldDoOne env doc OpType.beforeUpdate).2.cfUpdateAt =
       doc.customF.map (fun _ => env.nowUpdate) ∧
     fieldDoOne env doc OpType.beforeReplace = fieldDoOne env doc OpType.beforeUpdate) := by
  obtain ⟨odf, ocf⟩ := doc
  cases odf with
  | none =>
    cases ocf with
    | none =>
      simp [fieldDoOne, fieldHandler, beforeInsert, beforeUpsert, beforeUpdate,
        FDoc.dfId, FDoc.dfCreateAt, FDoc.cfId, FDoc.cfCreateAt, FDoc.dfUpdateAt, FDoc.cfUpdateAt]
    | some cf =>
      refine ⟨⟨fun _ => ⟨rfl, rfl⟩, fun _ => ⟨rfl, rfl⟩, fun h => ?_, fun h => ?_⟩,
        rfl, rfl, rfl, ?_, rfl, rfl, rfl⟩
      · have hid : cf.id ≠ 0 := by
          simpa [FDoc.cfId] using h
        constructor <;>
          simp [fieldDoOne, fieldHandler, beforeInsert, beforeUpsert, FDoc.cfId,
            cfChain_id cf env.newId env.nowCreate env.nowUpdate hid]
      · have hc : cf.createAt ≠ 0 := by
          simpa [FDoc.cfCreateAt] using h
        constructor <;>
          simp [fieldDoOne, fieldHandler, beforeInsert, beforeUpsert, FDoc.cfCreateAt,
            cfChain_createAt cf env.newId env.nowCreate env.nowUpdate hc]
      · simp [fieldDoOne, fieldHandler, beforeUpdate, FDoc.cfCreateAt,
          CustomFields.CustomUpdateTime]
  | some df =>
    cases ocf with
    | none =>
      refine ⟨⟨fun h => ?_, fun h => ?_, fun _ => ⟨rfl, rfl⟩, fun _ => ⟨rfl, rfl⟩⟩,
        ?_, ?_, rfl, rfl, ?_, rfl, rfl⟩
      · have hid : df.Id ≠ 0 := by
          simpa [FDoc.dfId] using h
        constructor <;>
          simp [fieldDoOne, fieldHandler, beforeInsert, beforeUpsert, FDoc.dfId,
            dfChain_id df env.newId env.nowCreate env.nowUpdate hid]
      · have hc : df.CreateAt ≠ 0 := by
          simpa [FDoc.dfCreateAt] using h
        constructor <;>
          simp [fieldDoOne, fieldHandler, beforeInsert, beforeUpsert, FDoc.dfCreateAt,
            dfChain_createAt df env.newId env.nowCreate env.nowUpdate hc]
      · simp [fieldDoOne, fieldHandler, beforeUpdate, FDoc.dfId, DefaultField.DefaultUpdateAt]
      · simp [fieldDoOne, fieldHandler, beforeUpdate, FDoc.dfCreateAt,
          DefaultField.DefaultUpdateAt]
      · simp [fieldDoOne, fieldHandler, beforeUpdate, FDoc.dfUpdateAt,
          DefaultField.DefaultUpdateAt]
    | some cf =>
      refine ⟨⟨fun h => ?_, fun h => ?_, fun h => ?_, fun h => ?_⟩,
        ?_, ?_, ?_, ?_, ?_, ?_, rfl⟩
      · have hid : df.Id ≠ 0 := by
          simpa [FDoc.dfId] using h
        constructor <;>
          simp [fieldDoOne, fieldHandler, beforeInsert, beforeUpsert, FDoc.dfId,
            dfChain_id df env.newId env.nowCreate env.nowUpdate hid]
      · have hc : df.CreateAt ≠ 0 := by
          simpa [FDoc.dfCreateAt] using h
        constructor <;>
          simp [fieldDoOne, fieldHandler, beforeInsert, beforeUpsert, FDoc.dfCreateAt,
            dfChain_createAt df env.newId env.nowCreate env.nowUpdate hc]
      · have hid : cf.id ≠ 0 := by
          simpa [FDoc.cfId] using h
        constructor <;>
          simp [fieldDoOne, fieldHandler, beforeInsert, beforeUpsert, FDoc.cfId,
            cfChain_id cf env.newId env.nowCreate env.nowUpdate hid]
      · have hc : cf.createAt ≠ 0 := by
          simpa [FDoc.cfCreateAt] using h
        constructor <;>
          simp [fieldDoOne, fieldHandler, beforeInsert, beforeUpsert, FDoc.cfCreateAt,
            cfChain_createAt cf env.newId env.nowCreate env.nowUpdate hc]
      · simp [fieldDoOne, fieldHandler, beforeUpdate, FDoc.dfId, DefaultField.DefaultUpdateAt]
      · simp [fieldDoOne, fieldHandler, beforeUpdate, FDoc.dfCreateAt,
          DefaultField.DefaultUpdateAt]
      · simp [fieldDoOne, fieldHandler, beforeUpdate, FDoc.cfId, CustomFields.CustomUpdateTime]
      · simp [fieldDoOne, fieldHandler, beforeUpdate, FDoc.cfCreateAt,
          CustomFields.CustomUpdateTime]
      · simp [fieldDoOne, fieldHandler, beforeUpdate, FDoc.dfUpdateAt,
          DefaultField.DefaultUpdateAt]
      · simp [fieldDoOne, fieldHandler, beforeUpdate, FDoc.cfUpdateAt,
          CustomFields.CustomUpdateTime]

/-- Witness for C6: a document with nonzero identity and creation-time in
both capabilities keeps them through before-insert, and before-update
leaves them untouched. -/
theorem c6_field_defaulting_no_overwrite_witness :
    (fieldDoOne (FieldEnv.mk 77 100 200) (FDoc.mk (some (DefaultField.mk 5 7 9))
      (some (CustomFields.mk 3 4 6))) OpType.beforeInsert).2.dfId = some 5 ∧
    (fieldDoOne (FieldEnv.mk 77 100 200) (FDoc.mk (some (DefaultField.mk 5 7 9))
      (some (CustomFields.mk 3 4 6))) OpType.beforeUpdate).2.dfCreateAt = some 7 :=
  ⟨((c6_field_defaulting_no_overwrite (FieldEnv.mk 77 100 200)
      (FDoc.mk (some (DefaultField.mk 5 7 9)) (some (CustomFields.mk 3 4 6)))).1.1
      (by decide)).1,
   (c6_field_defaulting_no_overwrite (FieldEnv.mk 77 100 200)
      (FDoc.mk (some (DefaultField.mk 5 7 9)) (some (CustomFields.mk 3 4 6)))).2.2.1⟩

/-- C7 counterexample: the claim says every update-time written by field
defaulting is millisecond-truncated. At a `time.Now()` reading of
1000001 ns the before-update phase writes 1000001 into the default
update-time field, whose nanosecond component is not a multiple of one
million. -/
theorem c7_update_time_not_truncated_cex :
    (fieldDoOne (FieldEnv.mk 1 1000001 1000001)
      (FDoc.mk (some (DefaultField.mk 1 1 0)) none) OpType.beforeUpdate).2.dfUpdateAt =
      some 1000001 ∧
    (1000001 : Nat) % 1000000 ≠ 0 := by
  constructor
  · rfl
  · decide

/-- C7 amended: the utility `Now` does return a millisecond-truncated
timestamp, but `DefaultField.DefaultUpdateAt` writes the raw
`time.Now().Local()` reading without truncation, so the update-time field
equals the raw current time and is millisecond-truncated only when that
reading happens to be. -/
theorem c7_update_time_raw_now :
    (∀ n : Nat, Now n % 1000000 = 0) ∧
    (∀ (df : DefaultField) (t : Nat), (df.DefaultUpdateAt t).UpdateAt = t) ∧
    (∀ (env : FieldEnv) (doc : FDoc),
      (fieldDoOne env doc OpType.beforeUpdate).2.dfUpdateAt =
        doc.defaultF.map (fun _ => env.nowUpdate)) := by
  refine ⟨fun n => Nat.mul_mod_left _ _, fun df t => rfl, fun env doc => ?_⟩
  obtain ⟨odf, ocf⟩ := doc
  cases odf <;> cases ocf <;>
    simp [fieldDoOne, fieldHandler, beforeUpdate, FDoc.dfUpdateAt,
      DefaultField.DefaultUpdateAt, CustomFields.CustomUpdateTime]

/-- C8 counterexample: the claim says only the lowercase token "desc"
selects descending and `ParseSortField "age DESC"` is ascending; the code
lowercases the token first, so "age DESC" parses as descending. -/
theorem c8_desc_case_insensitive_cex :
    ParseSortField "age DESC" = ("age", -1) := by
  rfl

/-- C8 amended: `ParseSortField` returns descending exactly when the input
splits on spaces into exactly two tokens whose second, lowercased, equals
"desc"; "age" is ascending and both "age desc" and "age DESC" are
descending. -/
theorem c8_parse_sort_field_case_insensitive :
    ParseSortField "age" = ("age", 1) ∧
    ParseSortField "age desc" = ("age", -1) ∧
    ParseSortField "age DESC" = ("age", -1) ∧
    ∀ f : String, (ParseSortField f).2 = -1 ↔
      ((goSplitSpace f).length = 2 ∧ goToLower ((goSplitSpace f).getD 1 "") = "desc") := by
  refine ⟨rfl, rfl, rfl, fun f => ?_⟩
  by_cases hf : f = ""
  · subst hf
    decide
  · simp only [ParseSortField, if_neg hf]
    split_ifs with hc
    · exact iff_of_true rfl hc
    · exact iff_of_false (by decide) hc

/-- C9: `Query.Distinct` validates the result target before the driver
call: a non-pointer target yields the "not slice pointer" error and a
pointer to a non-slice, non-interface pointee yields the "not slice type"
error, in both cases without issuing the driver call. -/
theorem c9_distinct_validates_target (rk ek : GoKind)
    (driverErr marshalErr : Option GoErr) (u : Bool) :
    (rk ≠ GoKind.kPtr →
      queryDistinct rk ek driverErr marshalErr u = (some GoErr.notSlicePointer, false)) ∧
    (ek ≠ GoKind.kInterface → ek ≠ GoKind.kSlice →
      queryDistinct GoKind.kPtr ek driverErr marshalErr u =
        (some GoErr.notSliceType, false)) := by
  constructor
  · intro h
    simp [queryDistinct, h]
  · intro h1 h2
    simp [queryDistinct, h1, h2]

/-- Witness for C9: a slice (non-pointer) target and a pointer-to-struct
target are both rejected before the driver call. -/
theorem c9_distinct_validates_target_witness :
    queryDistinct GoKind.kSlice GoKind.kOther none none true =
      (some GoErr.notSlicePointer, false) ∧
    queryDistinct GoKind.kPtr GoKind.kOther none none true =
      (some GoErr.notSliceType, false) :=
  ⟨(c9_distinct_validates_target GoKind.kSlice GoKind.kOther none none true).1 (by decide),
   (c9_distinct_validates_target GoKind.kSlice GoKind.kOther none none true).2 (by decide)
     (by decide)⟩

/-- C10: the before-insert and before-upsert field-defaulting handlers are
extensionally equal: they perform the same mutations and return the same
result on every document, both directly and through the phase dispatcher. -/
theorem c10_beforeInsert_eq_beforeUpsert (env : FieldEnv) (doc : FDoc) :
    beforeInsert env doc = beforeUpsert env doc ∧
    fieldDoOne env doc OpType.beforeInsert = fieldDoOne env doc OpType.beforeUpsert :=
  ⟨rfl, rfl⟩
